import Mathlib

/-!
Verification of the Sentinel Guard detection-and-decision pipeline.

Shallow embedding of the Python sources:
  * `src/detector.py`   — FuzzyMatcher (normalize_text, fuzzy_match),
                          AttackDetector (detect_system_override, calculate_confidence)
  * `src/state.py`      — ConversationState (add_prompt, get_history,
                          analyze_temporal_patterns)
  * `src/main.py`       — DecisionEngine (make_decision, _sanitize_prompt)
  * `src/llm_analyzer.py` — LLMAnalyzer._parse_llm_response
  * `src/config.py`     — thresholds, keyword lists, temporal indicators

Modelling conventions: Python strings are lists of characters (`List Char`);
Python floats are modelled as exact rationals (`ℚ`); `round(x, 2)` is modelled
as rounding `100·x` to the nearest integer; Python dicts keyed by user id are
total functions defaulting to the empty history.  The external regex engine and
the remote oracle transport are inputs to the embedded functions, not modelled.
-/

namespace SentinelGuard

/-- ASCII lowercasing of one character, the fragment of Python `str.lower`
exercised by the sources (all keyword/variant tables are ASCII). -/
def lowerChar (c : Char) : Char :=
  if 65 ≤ c.toNat ∧ c.toNat ≤ 90 then Char.ofNat (c.toNat + 32) else c

/-- ASCII uppercasing of one character (Python `str.upper`, ASCII fragment). -/
def upperChar (c : Char) : Char :=
  if 97 ≤ c.toNat ∧ c.toNat ≤ 122 then Char.ofNat (c.toNat - 32) else c

/-- Python's substring test `pat in text`. -/
def substrOf (pat : List Char) : List Char → Bool
  | [] => pat.isEmpty
  | c :: rest => pat.isPrefixOf (c :: rest) || substrOf pat rest

/-- Python `s.replace(a, b)` for a single-character pattern `a`
(every replacement in `normalize_text` has a one-character pattern). -/
def applySub (a : Char) (b : List Char) (s : List Char) : List Char :=
  s.flatMap (fun c => if c = a then b else [c])

/-- The substitution table of `FuzzyMatcher.normalize_text`
(src/detector.py lines 18-32), in Python dict insertion order. -/
def SUBSTITUTIONS : List (Char × List Char) :=
  [('0', ['o']), ('1', ['i']), ('3', ['e']), ('4', ['a']), ('5', ['s']),
   ('7', ['t']), ('8', ['b']), ('@', ['a']), ('$', ['s']), ('!', ['i']),
   ('.', []), ('-', []), ('_', [])]

/-- `FuzzyMatcher.normalize_text` (src/detector.py lines 14-43): lowercase,
apply the substitutions one `str.replace` at a time, then remove the space
character (the source removes only `' '`, via `normalized.replace(' ', '')`). -/
def normalize_text (s : List Char) : List Char :=
  let lowered := s.map lowerChar
  let substituted := SUBSTITUTIONS.foldl (fun acc p => applySub p.1 p.2 acc) lowered
  applySub ' ' [] substituted

/-- Single-pass per-character description of the substitution phase: the
table entries of `SUBSTITUTIONS` plus the removal of `' '`.  Used to state
the per-character characterisation of `normalize_text`. -/
def substFun (c : Char) : List Char :=
  if c = '0' then ['o'] else if c = '1' then ['i'] else if c = '3' then ['e']
  else if c = '4' then ['a'] else if c = '5' then ['s'] else if c = '7' then ['t']
  else if c = '8' then ['b'] else if c = '@' then ['a'] else if c = '$' then ['s']
  else if c = '!' then ['i'] else if c = '.' then [] else if c = '-' then []
  else if c = '_' then [] else if c = ' ' then [] else [c]

end SentinelGuard

namespace SentinelGuard

/-- Evidence recorded for a matched category: a (truncated) regex pattern
string, a fuzzy-match hit list, or a found privilege keyword. -/
inductive Evidence
  | regex (pat : List Char)
  | fuzzy (hits : List (List Char))
  | keyword (kw : List Char)
deriving DecidableEq

/-- `FuzzyMatcher.fuzzy_match` (src/detector.py lines 45-63): normalise the
text once; for each pattern group record the first variant whose normalised
form is a substring of the normalised text (inner `break`); report a match
when at least two groups produced a hit. -/
def fuzzy_match (text : List Char) (patterns : List (List (List Char))) :
    Bool × List (List Char) :=
  let normalized_text := normalize_text text
  let matched_patterns := patterns.foldl
    (fun acc pattern_group =>
      match pattern_group.find? (fun v => substrOf (normalize_text v) normalized_text) with
      | some v => acc ++ [v]
      | none => acc) []
  (decide (2 ≤ matched_patterns.length), matched_patterns)

/-- The `fuzzy_system_override` variant groups (src/detector.py lines 89-93). -/
def fuzzy_system_override : List (List (List Char)) :=
  [["ignore".data, "disregard".data, "forget".data, "bypass".data, "skip".data, "omit".data],
   ["previous".data, "prior".data, "earlier".data, "above".data, "preceding".data],
   ["instructions".data, "directives".data, "rules".data, "guidelines".data,
    "commands".data, "orders".data]]

/-- `AttackDetector.detect_system_override` (src/detector.py lines 111-134).
The external regex engine is not modelled: `regex_hits` is the list of regex
patterns that `pattern.search(prompt)` reported (truncated to 50 characters as
in the source); the fuzzy half is computed by the embedded `fuzzy_match`. -/
def detect_system_override (regex_hits : List (List Char)) (prompt : List Char) :
    Bool × List Evidence :=
  let regex_matches := regex_hits.map (fun p => Evidence.regex (p.take 50))
  let fz := fuzzy_match prompt fuzzy_system_override
  let found := regex_matches ++ (if fz.1 then [Evidence.fuzzy fz.2] else [])
  (decide (0 < found.length), found)

/-- `config.MAX_CONVERSATION_HISTORY` (src/config.py line 6). -/
def MAX_CONVERSATION_HISTORY : ℕ := 10

/-- `config.CONFIDENCE_THRESHOLD_BLOCK` (src/config.py line 9). -/
def CONFIDENCE_THRESHOLD_BLOCK : ℚ := 0.8

/-- `config.CONFIDENCE_THRESHOLD_SANITIZE` (src/config.py line 10). -/
def CONFIDENCE_THRESHOLD_SANITIZE : ℚ := 0.5

/-- `config.PRIVILEGE_ESCALATION_KEYWORDS` (src/config.py lines 42-46). -/
def PRIVILEGE_ESCALATION_KEYWORDS : List (List Char) :=
  ["admin".data, "administrator".data, "root".data, "sudo".data, "system".data,
   "internal".data, "confidential".data, "secret".data, "private".data,
   "database".data, "credentials".data, "password".data, "api key".data]

/-- `config.TEMPORAL_INDICATORS["escalation_rate"]` (src/config.py line 68). -/
def TEMPORAL_ESCALATION_RATE : ℚ := 3

/-- `config.TEMPORAL_INDICATORS["role_shift_count"]` (src/config.py line 69). -/
def TEMPORAL_ROLE_SHIFT_COUNT : ℕ := 2

/-- `config.TEMPORAL_INDICATORS["instruction_override_count"]` (src/config.py line 70). -/
def TEMPORAL_INSTRUCTION_OVERRIDE_COUNT : ℕ := 1

/-- The five attack categories (src/config.py PATTERN_WEIGHTS keys). -/
inductive Category
  | system_override
  | role_manipulation
  | privilege_escalation
  | data_extraction
  | jailbreak
deriving DecidableEq

/-- `config.PATTERN_WEIGHTS` (src/config.py lines 15-21). -/
def PATTERN_WEIGHTS : Category → ℚ
  | Category.system_override => 0.9
  | Category.role_manipulation => 0.85
  | Category.privilege_escalation => 0.75
  | Category.data_extraction => 0.7
  | Category.jailbreak => 0.95

/-- `PromptRecord` (src/state.py lines 12-19).  The timestamp is an abstract
clock value supplied by the caller (the source reads `datetime.utcnow()`);
`decision` is the decision string, `flags` the detected category names. -/
structure PromptRecord where
  prompt : List Char
  timestamp : ℕ
  decision : Option (List Char) := none
  confidence : Option ℚ := none
  flags : List Category := []
deriving DecidableEq

/-- Per-user conversation store (`ConversationState.conversations`,
src/state.py line 27): a Python dict user id → deque, modelled as a total
function defaulting to the empty history (a missing key and an empty deque
are observationally identical: `get_history` returns `[]` for both and
`add_prompt` lazily creates an empty deque). -/
def Conversations : Type := List Char → List PromptRecord

/-- Appending to a `deque(maxlen = n)`: when full, the oldest (leftmost)
record is evicted. -/
def dequeAppend (n : ℕ) (h : List PromptRecord) (r : PromptRecord) : List PromptRecord :=
  if h.length < n then h ++ [r] else h.drop (h.length + 1 - n) ++ [r]

/-- `ConversationState.add_prompt` (src/state.py lines 29-43). -/
def add_prompt (s : Conversations) (user_id : List Char) (r : PromptRecord) : Conversations :=
  fun v => if v = user_id then dequeAppend MAX_CONVERSATION_HISTORY (s user_id) r else s v

/-- `ConversationState.get_history` (src/state.py lines 45-53).  The source
guards the slice with `if limit:`, so a limit of `0` (falsy) returns the whole
history, and `history[-limit:]` takes the last `limit` records. -/
def get_history (s : Conversations) (user_id : List Char) (limit : Option ℕ) :
    List PromptRecord :=
  let history := s user_id
  match limit with
  | none => history
  | some l => if l = 0 then history else history.drop (history.length - l)

/-- The empty conversation store (a fresh `ConversationState`). -/
def empty_conversations : Conversations := fun _ => []

/-- A sequence of `add_prompt` calls, applied oldest first. -/
def apply_ops (s : Conversations) (ops : List (List Char × PromptRecord)) : Conversations :=
  ops.foldl (fun st p => add_prompt st p.1 p.2) s

/-- Count of privilege-escalation keywords occurring in one prompt
(src/state.py lines 81-84): the number of keywords `k` with
`k.lower() in record.prompt.lower()`. -/
def count_privilege_keywords (prompt : List Char) : ℕ :=
  (PRIVILEGE_ESCALATION_KEYWORDS.filter
    (fun k => substrOf (k.map lowerChar) (prompt.map lowerChar))).length

/-- The temporal flags that `analyze_temporal_patterns` can raise. -/
inductive TemporalFlag
  | privilege_escalation_over_time
  | repeated_role_manipulation
  | system_override_attempt
deriving DecidableEq

/-- The analysis dict built by `analyze_temporal_patterns` (src/state.py
lines 60-116).  `rep_role`/`rep_sys` model the `pattern_repetition` entries,
present only when the corresponding flag fired. -/
structure TemporalAnalysis where
  has_temporal_attack : Bool
  temporal_flags : List TemporalFlag
  escalation_detected : Bool
  rep_role : Option ℕ := none
  rep_sys : Option ℕ := none
deriving DecidableEq

/-- `ConversationState.analyze_temporal_patterns` (src/state.py lines 60-116),
expressed over the full retained history of one user (the source reads
`self.get_history(user_id)`).  The empty-history fast path returns the dict
`{"has_temporal_attack": False}`, whose missing `temporal_flags` key reads as
`[]` downstream.  In the source `has_temporal_attack` is set to `True`
exactly when a flag is appended, hence it equals `temporal_flags ≠ []`. -/
def analyze_temporal_patterns (history : List PromptRecord) : TemporalAnalysis :=
  if history.isEmpty then
    { has_temporal_attack := false, temporal_flags := [], escalation_detected := false }
  else
    let privilege_keywords_per_prompt :=
      history.map (fun r => count_privilege_keywords r.prompt)
    let role_manipulation_count :=
      (history.filter (fun r => r.flags.contains Category.role_manipulation)).length
    let system_override_count :=
      (history.filter (fun r => r.flags.contains Category.system_override)).length
    let escalation_detected :=
      if 3 ≤ privilege_keywords_per_prompt.length then
        let recent_avg : ℚ :=
          ((privilege_keywords_per_prompt.drop
              (privilege_keywords_per_prompt.length - 3)).sum : ℚ) / 3
        let earlier_avg : ℚ :=
          ((privilege_keywords_per_prompt.take
              (privilege_keywords_per_prompt.length - 3)).sum : ℚ) /
            ((max (privilege_keywords_per_prompt.length - 3) 1 : ℕ) : ℚ)
        decide (TEMPORAL_ESCALATION_RATE ≤ recent_avg - earlier_avg)
      else false
    let flags :=
      (if escalation_detected then [TemporalFlag.privilege_escalation_over_time] else []) ++
      (if TEMPORAL_ROLE_SHIFT_COUNT ≤ role_manipulation_count then
        [TemporalFlag.repeated_role_manipulation] else []) ++
      (if TEMPORAL_INSTRUCTION_OVERRIDE_COUNT ≤ system_override_count then
        [TemporalFlag.system_override_attempt] else [])
    { has_temporal_attack := !flags.isEmpty
      temporal_flags := flags
      escalation_detected := escalation_detected
      rep_role := if TEMPORAL_ROLE_SHIFT_COUNT ≤ role_manipulation_count then
        some role_manipulation_count else none
      rep_sys := if TEMPORAL_INSTRUCTION_OVERRIDE_COUNT ≤ system_override_count then
        some system_override_count else none }

end SentinelGuard

namespace SentinelGuard

/-- One matched category inside `analyze_prompt`'s results dict: the entry of
`detection_results["attacks_detected"]` together with its
`details[category]` record (evidence list and configured weight). -/
structure CategoryHit where
  category : Category
  evidence : List Evidence
  weight : ℚ
deriving DecidableEq

/-- The `detection_results` dict built by `AttackDetector.analyze_prompt`
(src/detector.py lines 211-275): the analysed prompt, the matched categories
with their details, and the `overall_threat` flag. -/
structure DetectionResult where
  prompt : List Char
  attacks_detected : List CategoryHit
  overall_threat : Bool
deriving DecidableEq

/-- A parsed oracle verdict (the dict returned by
`LLMAnalyzer.analyze_ambiguous_prompt` on success). -/
structure OracleVerdict where
  is_attack : Bool
  confidence : ℚ
  reasoning : List Char
deriving DecidableEq

/-- The `llm_meta_analysis` entry that `calculate_confidence` writes into the
detection results when the oracle returned a verdict. -/
structure LlmMeta where
  was_analyzed : Bool
  is_attack : Bool
  confidence : ℚ
  reasoning : List Char
deriving DecidableEq

/-- Python `round(x, 2)`: round `100·x` to the nearest integer (ties modelled
with Mathlib's `round`) and divide back by 100. -/
def round2 (q : ℚ) : ℚ := ((round (q * 100) : ℤ) : ℚ) / 100

/-- The pre-escalation confidence of `AttackDetector.calculate_confidence`
(src/detector.py lines 291-313): `base_confidence` is the average of the
maximum weight and the mean weight over the matched categories (`0.0` when no
category matched), the temporal boost is `0.15` per temporal flag when the
analysis reports a temporal attack, and the sum is capped at `1.0`. -/
def initial_confidence (det : DetectionResult) (ta : Option TemporalAnalysis) : ℚ :=
  let weights := det.attacks_detected.map (fun hit => hit.weight)
  let max_weight := weights.foldl max 0
  let total_weight := weights.foldl (· + ·) 0
  let count := weights.length
  let base_confidence := if 0 < count then (max_weight + total_weight / (count : ℚ)) / 2 else 0
  let temporal_boost : ℚ :=
    match ta with
    | some t => if t.has_temporal_attack then 0.15 * (t.temporal_flags.length : ℚ) else 0
    | none => 0
  min (base_confidence + temporal_boost) 1

/-- The observable outcome of `calculate_confidence`: the returned score,
whether `analyze_ambiguous_prompt` was invoked, and the `llm_meta_analysis`
entry written into the detection results (if any). -/
structure ConfOutcome where
  confidence : ℚ
  consulted : Bool
  llm_meta : Option LlmMeta
deriving DecidableEq

/-- `AttackDetector.calculate_confidence` (src/detector.py lines 277-346).
The oracle is an input: `analyzer_available` models `get_llm_analyzer()`
returning a non-`None` analyzer (escalation enabled), `oracle_response`
models the value of `analyze_ambiguous_prompt` — `none` when the call failed,
timed out, or was unavailable.  The escalation window test uses the literals
`0.5` and `0.8` exactly as the source does. -/
def calculate_confidence (det : DetectionResult) (ta : Option TemporalAnalysis)
    (analyzer_available : Bool) (oracle_response : Option OracleVerdict) : ConfOutcome :=
  if det.overall_threat = false then
    { confidence := 0, consulted := false, llm_meta := none }
  else
    let ic := initial_confidence det ta
    if (0.5 : ℚ) ≤ ic ∧ ic < (0.8 : ℚ) then
      if analyzer_available then
        match oracle_response with
        | some v =>
          let final := if v.is_attack then max ic v.confidence else min ic v.confidence
          let meta : LlmMeta :=
            { was_analyzed := true, is_attack := v.is_attack,
              confidence := v.confidence, reasoning := v.reasoning }
          { confidence := round2 final, consulted := true, llm_meta := some meta }
        | none => { confidence := round2 ic, consulted := true, llm_meta := none }
      else { confidence := round2 ic, consulted := false, llm_meta := none }
    else { confidence := round2 ic, consulted := false, llm_meta := none }

/-- The decision outcomes of the decision engine (src/main.py). -/
inductive Outcome
  | ALLOW
  | SANITIZE
  | BLOCK
deriving DecidableEq

/-- One entry of the `reasons` list assembled by `make_decision`
(src/main.py lines 83-136); each constructor corresponds to one f-string of
the source, carrying the interpolated data. -/
inductive Reason
  | llm_attack (reasoning : List Char)
  | llm_safe (reasoning : List Char)
  | system_override_detected (evidence : List Evidence)
  | role_manipulation_detected (evidence : List Evidence)
  | privilege_escalation_found (keywords : List Evidence)
  | data_extraction_detected
  | jailbreak_detected (evidence : List Evidence)
  | privilege_escalation_over_time
  | repeated_role_manipulation
  | system_override_attempt
  | high_confidence_fallback (confidence : ℚ)
  | moderate_threat_fallback (confidence : ℚ)
  | prior_attacks_current_safe
  | no_threats_detected
deriving DecidableEq

/-- The decision dict returned by `DecisionEngine.make_decision`
(src/main.py lines 138-146). -/
structure Decision where
  outcome : Outcome
  confidence : ℚ
  reasons : List Reason
  sanitized_prompt : Option (List Char)
  attacks_detected : List Category
  temporal_flags : List TemporalFlag
  llm_reasoning : Option (List Char)
deriving DecidableEq

/-- The per-category reason line of `make_decision` (src/main.py lines 92-104),
with the evidence presentation caps of the source (`[:2]`, `[:3]`). -/
def categoryReason (hit : CategoryHit) : Reason :=
  match hit.category with
  | Category.system_override => Reason.system_override_detected (hit.evidence.take 2)
  | Category.role_manipulation => Reason.role_manipulation_detected (hit.evidence.take 2)
  | Category.privilege_escalation => Reason.privilege_escalation_found (hit.evidence.take 3)
  | Category.data_extraction => Reason.data_extraction_detected
  | Category.jailbreak => Reason.jailbreak_detected (hit.evidence.take 2)

/-- The per-temporal-flag reason line of `make_decision` (src/main.py
lines 106-113). -/
def flagReason (f : TemporalFlag) : Reason :=
  match f with
  | TemporalFlag.privilege_escalation_over_time => Reason.privilege_escalation_over_time
  | TemporalFlag.repeated_role_manipulation => Reason.repeated_role_manipulation
  | TemporalFlag.system_override_attempt => Reason.system_override_attempt

/-- The fixed safety marker of `DecisionEngine._sanitize_prompt`
(src/main.py lines 148-160). -/
def SAFETY_MARKER : List Char := "[SANITIZED INPUT - User Query]: ".data

/-- `DecisionEngine.make_decision` (src/main.py lines 65-146). -/
def make_decision (prompt : List Char) (det : DetectionResult) (llm_meta : Option LlmMeta)
    (ta : TemporalAnalysis) (confidence : ℚ) : Decision :=
  let llm_reasons : List Reason :=
    match llm_meta with
    | some m =>
      if m.was_analyzed then
        [if m.is_attack then Reason.llm_attack m.reasoning else Reason.llm_safe m.reasoning]
      else []
    | none => []
  let llm_reasoning : Option (List Char) :=
    match llm_meta with
    | some m => if m.was_analyzed then some m.reasoning else none
    | none => none
  let reasons :=
    llm_reasons ++ det.attacks_detected.map categoryReason ++ ta.temporal_flags.map flagReason
  let attacks := det.attacks_detected.map (fun hit => hit.category)
  if CONFIDENCE_THRESHOLD_BLOCK ≤ confidence then
    { outcome := Outcome.BLOCK
      confidence := confidence
      reasons := if reasons.isEmpty then [Reason.high_confidence_fallback confidence] else reasons
      sanitized_prompt := none
      attacks_detected := attacks
      temporal_flags := ta.temporal_flags
      llm_reasoning := llm_reasoning }
  else if CONFIDENCE_THRESHOLD_SANITIZE ≤ confidence then
    { outcome := Outcome.SANITIZE
      confidence := confidence
      reasons := if reasons.isEmpty then [Reason.moderate_threat_fallback confidence] else reasons
      sanitized_prompt := some (SAFETY_MARKER ++ prompt)
      attacks_detected := attacks
      temporal_flags := ta.temporal_flags
      llm_reasoning := llm_reasoning }
  else
    { outcome := Outcome.ALLOW
      confidence := confidence
      reasons :=
        if attacks.isEmpty ∧ ¬ ta.temporal_flags.isEmpty then
          [Reason.prior_attacks_current_safe]
        else if reasons.isEmpty then [Reason.no_threats_detected] else reasons
      sanitized_prompt := none
      attacks_detected := attacks
      temporal_flags := ta.temporal_flags
      llm_reasoning := llm_reasoning }

/-- Steps 4-5 of the `/analyze` endpoint (src/main.py lines 200-213):
score the prompt, then hand the (possibly oracle-adjusted) confidence and the
recorded meta-analysis to the decision engine. -/
def decide_with (prompt : List Char) (det : DetectionResult) (ta : TemporalAnalysis)
    (analyzer_available : Bool) (oracle_response : Option OracleVerdict) : Decision :=
  let co := calculate_confidence det (some ta) analyzer_available oracle_response
  make_decision prompt det co.llm_meta ta co.confidence

end SentinelGuard

namespace SentinelGuard

/-- The whitespace characters stripped by Python's argumentless `str.strip`. -/
def isPySpace (c : Char) : Bool :=
  c = ' ' || c = '\t' || c = '\n' || c = '\r' || c = '\x0B' || c = '\x0C'

/-- Python `s.strip()`: drop whitespace from both ends. -/
def pyStrip (s : List Char) : List Char :=
  ((s.dropWhile isPySpace).reverse.dropWhile isPySpace).reverse

/-- Structural worker for `removeAll`, recursing on a fuel bound.  Each step
consumes at least one character, so fuel equal to the input length never runs
out and the fuel-exhausted branch is unreachable. -/
def removeAllFuel (pat : List Char) : ℕ → List Char → List Char
  | 0, s => s
  | _ + 1, [] => []
  | fuel + 1, c :: rest =>
    if pat ≠ [] ∧ pat.isPrefixOf (c :: rest) then
      removeAllFuel pat fuel ((c :: rest).drop pat.length)
    else
      c :: removeAllFuel pat fuel rest

/-- Python `s.replace(pat, "")` for a multi-character pattern: remove every
left-to-right non-overlapping occurrence of `pat`. -/
def removeAll (pat : List Char) (s : List Char) : List Char :=
  removeAllFuel pat s.length s

/-- Python `s[s.index(pat) + len(pat):]`: the suffix after the first
occurrence of `pat`, or `none` when `pat` does not occur. -/
def afterFirst (pat : List Char) : List Char → Option (List Char)
  | [] => if pat.isEmpty then some [] else none
  | c :: rest =>
    if pat.isPrefixOf (c :: rest) then some ((c :: rest).drop pat.length)
    else afterFirst pat rest

/-- Value of a non-empty all-digit string, `none` otherwise. -/
def parseDigits (s : List Char) : Option ℕ :=
  if s ≠ [] ∧ s.all (fun c => '0' ≤ c ∧ c ≤ '9') then
    some (s.foldl (fun acc c => 10 * acc + (c.toNat - 48)) 0)
  else none

/-- Simplified model of Python's `float` constructor on stripped text,
covering the plain decimal forms (`"12"`, `"0.85"`, `".5"`, `"1."`, with an
optional leading sign) that an oracle confidence line can carry; exotic float
syntax (exponents, `inf`, `nan`, underscores) is out of scope and maps to
`none` (a `ValueError` in the source). -/
def parseUnsignedFloat (s : List Char) : Option ℚ :=
  match s.splitOn '.' with
  | [intPart] => (parseDigits intPart).map (fun n => (n : ℚ))
  | [intPart, fracPart] =>
    if intPart = [] ∧ fracPart = [] then none
    else
      let iv := if intPart = [] then some 0 else parseDigits intPart
      let fv := if fracPart = [] then some 0 else parseDigits fracPart
      match iv, fv with
      | some i, some f => some ((i : ℚ) + (f : ℚ) / ((10 : ℚ) ^ fracPart.length))
      | _, _ => none
  | _ => none

/-- Signed variant of `parseUnsignedFloat`. -/
def parseFloat (s : List Char) : Option ℚ :=
  match s with
  | '+' :: rest => parseUnsignedFloat rest
  | '-' :: rest => (parseUnsignedFloat rest).map (fun q => -q)
  | _ => parseUnsignedFloat s

/-- The result dict of `LLMAnalyzer._parse_llm_response`. -/
structure OracleParse where
  is_attack : Bool
  confidence : ℚ
  reasoning : List Char
deriving DecidableEq

/-- Loop state of the line scan in `_parse_llm_response`
(src/llm_analyzer.py lines 125-144). -/
structure ParseState where
  verdict : Option Bool
  confidence : ℚ
  reasoning : List Char
deriving DecidableEq

/-- One iteration of the line loop of `_parse_llm_response`
(src/llm_analyzer.py lines 131-144): strip the line; a `VERDICT:` line sets
the verdict to whether the rest (stripped, uppercased) contains `ATTACK`; a
`CONFIDENCE:` line parses a float and clamps it to `[0, 1]`, defaulting to
`0.5` on a parse error; a `REASONING:` line records the rest. -/
def parseLine (st : ParseState) (line : List Char) : ParseState :=
  let l := pyStrip line
  if "VERDICT:".data.isPrefixOf l then
    let v := substrOf "ATTACK".data ((pyStrip (removeAll "VERDICT:".data l)).map upperChar)
    { st with verdict := some v }
  else if "CONFIDENCE:".data.isPrefixOf l then
    let conf : ℚ :=
      match parseFloat (pyStrip (removeAll "CONFIDENCE:".data l)) with
      | some v => max 0 (min 1 v)
      | none => 0.5
    { st with confidence := conf }
  else if "REASONING:".data.isPrefixOf l then
    { st with reasoning := pyStrip (removeAll "REASONING:".data l) }
  else st

/-- The default reasoning note of `_parse_llm_response` when no verdict line
was recognised (src/llm_analyzer.py line 154). -/
def PARSE_FAILURE_NOTE : List Char := "Unable to parse LLM response - defaulting to safe".data

/-- `LLMAnalyzer._parse_llm_response` (src/llm_analyzer.py lines 115-168):
scan the stripped response line by line; then, if `REASONING:` occurs anywhere
in the raw response, take everything after its first occurrence as the
reasoning; finally, if no `VERDICT:` line was seen, default to not-an-attack
with the parse-failure note.  The function is total — the source wraps the
body in a `try/except` that cannot be reached by this logic. -/
def parse_llm_response (response : List Char) : OracleParse :=
  let lines := (pyStrip response).splitOn '\n'
  let st := lines.foldl parseLine { verdict := none, confidence := 0.5, reasoning := [] }
  let reasoning :=
    match afterFirst "REASONING:".data response with
    | some suffix => pyStrip suffix
    | none => st.reasoning
  match st.verdict with
  | some v => { is_attack := v, confidence := st.confidence, reasoning := reasoning }
  | none =>
    { is_attack := false, confidence := st.confidence, reasoning := PARSE_FAILURE_NOTE }

end SentinelGuard

namespace SentinelGuard

/-- Fixture: detection result with no matched category (a harmless prompt). -/
def detNoThreat : DetectionResult :=
  { prompt := "What is the weather like today?".data
    attacks_detected := []
    overall_threat := false }

/-- Fixture for the §8 escalation scenario: a synthetic detection result whose
single matched category carries weight `0.62`, so the initial confidence is
exactly `0.62` (inside the escalation window). -/
def detC3 : DetectionResult :=
  { prompt := "please summarise the internal report".data
    attacks_detected :=
      [{ category := Category.data_extraction, evidence := [], weight := 62 / 100 }]
    overall_threat := true }

/-- Fixture: the simulated oracle verdict `{isAttack: false, confidence: 0.3}`. -/
def verdictC3 : OracleVerdict :=
  { is_attack := false, confidence := 3 / 10, reasoning := "benign request".data }

/-- Fixture: an empty temporal analysis (no flags, no temporal attack). -/
def taEmpty : TemporalAnalysis :=
  { has_temporal_attack := false, temporal_flags := [], escalation_detected := false }

/-- Fixture: twelve history records for one user, timestamps 0 to 11. -/
def recsC5 : List PromptRecord :=
  (List.range 12).map (fun i => { prompt := "p".data, timestamp := i })

/-- Fixture for the §8 temporal scenario: five prompts whose per-turn
privilege-keyword counts are [0, 0, 1, 2, 5]. -/
def histC7a : List PromptRecord :=
  [{ prompt := "hello".data, timestamp := 0 },
   { prompt := "hi there".data, timestamp := 1 },
   { prompt := "the root cause".data, timestamp := 2 },
   { prompt := "sudo root".data, timestamp := 3 },
   { prompt := "root sudo secret private internal".data, timestamp := 4 }]

/-- Fixture for the §8 temporal scenario: five prompts whose per-turn
privilege-keyword counts are [0, 0, 0, 4, 5]. -/
def histC7b : List PromptRecord :=
  [{ prompt := "hello".data, timestamp := 0 },
   { prompt := "hi there".data, timestamp := 1 },
   { prompt := "ok then".data, timestamp := 2 },
   { prompt := "root sudo secret private".data, timestamp := 3 },
   { prompt := "root sudo secret private internal".data, timestamp := 4 }]

end SentinelGuard


namespace SentinelGuard

theorem char_toNat_ofNat_of_range (n : ℕ) (h1 : 97 ≤ n) (h2 : n ≤ 122) :
    (Char.ofNat n).toNat = n := by
  have hv : n.isValidChar := Or.inl (by omega)
  simp only [Char.ofNat, hv, dite_true, Char.ofNatAux, Char.toNat]
  rfl

theorem lowerChar_idem (c : Char) : lowerChar (lowerChar c) = lowerChar c := by
  unfold lowerChar
  by_cases h : 65 ≤ c.toNat ∧ c.toNat ≤ 90
  · rw [if_pos h]
    have ht : (Char.ofNat (c.toNat + 32)).toNat = c.toNat + 32 :=
      char_toNat_ofNat_of_range _ (by omega) (by omega)
    rw [if_neg (by rw [ht]; omega)]
  · rw [if_neg h, if_neg h]

theorem applySub_append (a : Char) (b : List Char) (x y : List Char) :
    applySub a b (x ++ y) = applySub a b x ++ applySub a b y := by
  simp [applySub]

theorem normalize_text_append (x y : List Char) :
    normalize_text (x ++ y) = normalize_text x ++ normalize_text y := by
  simp only [normalize_text, SUBSTITUTIONS, List.map_append, List.foldl_cons, List.foldl_nil,
    applySub_append]

theorem normalize_text_single (d : Char) :
    applySub ' ' [] (SUBSTITUTIONS.foldl (fun acc p => applySub p.1 p.2 acc) [d]) = substFun d := by
  by_cases h0 : d = '0'
  · subst h0; decide
  by_cases h1 : d = '1'
  · subst h1; decide
  by_cases h3 : d = '3'
  · subst h3; decide
  by_cases h4 : d = '4'
  · subst h4; decide
  by_cases h5 : d = '5'
  · subst h5; decide
  by_cases h7 : d = '7'
  · subst h7; decide
  by_cases h8 : d = '8'
  · subst h8; decide
  by_cases hat : d = '@'
  · subst hat; decide
  by_cases hdol : d = '$'
  · subst hdol; decide
  by_cases hexc : d = '!'
  · subst hexc; decide
  by_cases hdot : d = '.'
  · subst hdot; decide
  by_cases hdash : d = '-'
  · subst hdash; decide
  by_cases hund : d = '_'
  · subst hund; decide
  by_cases hsp : d = ' '
  · subst hsp; decide
  simp [SUBSTITUTIONS, applySub, substFun, h0, h1, h3, h4, h5, h7, h8, hat, hdol, hexc, hdot,
    hdash, hund, hsp]

theorem normalize_text_cons_eq (c : Char) :
    normalize_text [c] = substFun (lowerChar c) := by
  have hmap : ([c].map lowerChar) = [lowerChar c] := rfl
  rw [normalize_text]
  simp only [hmap]
  exact normalize_text_single (lowerChar c)

theorem normalize_text_eq_flatMap (s : List Char) :
    normalize_text s = s.flatMap (fun c => substFun (lowerChar c)) := by
  induction s with
  | nil => decide
  | cons c rest ih =>
    have hsplit : (c :: rest) = [c] ++ rest := rfl
    rw [hsplit, normalize_text_append, ih, List.flatMap_append, normalize_text_cons_eq]
    simp

theorem substFun_eq_self_of_ne (d : Char)
    (h0 : d ≠ '0') (h1 : d ≠ '1') (h3 : d ≠ '3') (h4 : d ≠ '4') (h5 : d ≠ '5')
    (h7 : d ≠ '7') (h8 : d ≠ '8') (hat : d ≠ '@') (hdol : d ≠ '$') (hexc : d ≠ '!')
    (hdot : d ≠ '.') (hdash : d ≠ '-') (hund : d ≠ '_') (hsp : d ≠ ' ') :
    substFun d = [d] := by
  simp [substFun, h0, h1, h3, h4, h5, h7, h8, hat, hdol, hexc, hdot, hdash, hund, hsp]

theorem space_notMem_substFun (d : Char) : ' ' ∉ substFun d := by
  by_cases h0 : d = '0'
  · subst h0; decide
  by_cases h1 : d = '1'
  · subst h1; decide
  by_cases h3 : d = '3'
  · subst h3; decide
  by_cases h4 : d = '4'
  · subst h4; decide
  by_cases h5 : d = '5'
  · subst h5; decide
  by_cases h7 : d = '7'
  · subst h7; decide
  by_cases h8 : d = '8'
  · subst h8; decide
  by_cases hat : d = '@'
  · subst hat; decide
  by_cases hdol : d = '$'
  · subst hdol; decide
  by_cases hexc : d = '!'
  · subst hexc; decide
  by_cases hdot : d = '.'
  · subst hdot; decide
  by_cases hdash : d = '-'
  · subst hdash; decide
  by_cases hund : d = '_'
  · subst hund; decide
  by_cases hsp : d = ' '
  · subst hsp; decide
  rw [substFun_eq_self_of_ne _ h0 h1 h3 h4 h5 h7 h8 hat hdol hexc hdot hdash hund hsp]
  exact fun hmem => hsp ((List.mem_singleton.mp hmem).symm)

theorem substFun_lowerChar_idem (c : Char) :
    (substFun (lowerChar c)).flatMap (fun e => substFun (lowerChar e)) =
      substFun (lowerChar c) := by
  by_cases h0 : lowerChar c = '0'
  · rw [h0]; decide
  by_cases h1 : lowerChar c = '1'
  · rw [h1]; decide
  by_cases h3 : lowerChar c = '3'
  · rw [h3]; decide
  by_cases h4 : lowerChar c = '4'
  · rw [h4]; decide
  by_cases h5 : lowerChar c = '5'
  · rw [h5]; decide
  by_cases h7 : lowerChar c = '7'
  · rw [h7]; decide
  by_cases h8 : lowerChar c = '8'
  · rw [h8]; decide
  by_cases hat : lowerChar c = '@'
  · rw [hat]; decide
  by_cases hdol : lowerChar c = '$'
  · rw [hdol]; decide
  by_cases hexc : lowerChar c = '!'
  · rw [hexc]; decide
  by_cases hdot : lowerChar c = '.'
  · rw [hdot]; decide
  by_cases hdash : lowerChar c = '-'
  · rw [hdash]; decide
  by_cases hund : lowerChar c = '_'
  · rw [hund]; decide
  by_cases hsp : lowerChar c = ' '
  · rw [hsp]; decide
  rw [substFun_eq_self_of_ne _ h0 h1 h3 h4 h5 h7 h8 hat hdol hexc hdot hdash hund hsp]
  simp only [List.flatMap_cons, List.flatMap_nil, List.append_nil, lowerChar_idem]
  exact substFun_eq_self_of_ne _ h0 h1 h3 h4 h5 h7 h8 hat hdol hexc hdot hdash hund hsp

end SentinelGuard

namespace SentinelGuard

/-- Claim C8 (counterexample): the claim asserts that `normalize_text` removes
all whitespace characters so that no whitespace of any kind survives; but the
source removes only the space character `' '`, so a tab survives normalisation
unchanged and is whitespace. -/
theorem claim_C8_counterexample :
    normalize_text ['a', '\t', 'b'] = ['a', '\t', 'b'] ∧ ('\t').isWhitespace = true := by
  constructor
  · decide
  · decide

/-- Claim C8 (amended): `normalize_text` equals the lowercased text with each
character of the fixed substitution table replaced (0→o, 1→i, 3→e, 4→a, 5→s,
7→t, 8→b, @→a, $→s, !→i) and with every '.', '-', '_' and every space
character `' '` removed (this is exactly `substFun` applied characterwise), so
the output contains no space character; whitespace other than `' '` (tab,
newline, ...) is preserved, as witnessed by the counterexample. -/
theorem claim_C8_amended (s : List Char) :
    normalize_text s = s.flatMap (fun c => substFun (lowerChar c)) ∧
    ' ' ∉ normalize_text s := by
  refine ⟨normalize_text_eq_flatMap s, ?_⟩
  rw [normalize_text_eq_flatMap s]
  intro hmem
  rcases List.mem_flatMap.mp hmem with ⟨c, _, hc⟩
  exact space_notMem_substFun (lowerChar c) hc

/-- Claim C10: text normalisation is idempotent —
`normalize_text (normalize_text s) = normalize_text s` for every input. -/
theorem claim_C10_normalize_idempotent (s : List Char) :
    normalize_text (normalize_text s) = normalize_text s := by
  induction s with
  | nil => decide
  | cons c rest ih =>
    have hcons : normalize_text (c :: rest) = substFun (lowerChar c) ++ normalize_text rest := by
      rw [normalize_text_eq_flatMap, List.flatMap_cons, ← normalize_text_eq_flatMap]
    have hval : normalize_text (substFun (lowerChar c)) = substFun (lowerChar c) := by
      rw [normalize_text_eq_flatMap]
      exact substFun_lowerChar_idem c
    rw [hcons, normalize_text_append, ih, hval]

end SentinelGuard

namespace SentinelGuard

theorem foldl_firstMatch_eq_filterMap (f : List Char → Bool) (gs : List (List (List Char))) :
    ∀ acc : List (List Char),
      gs.foldl (fun acc g => match g.find? f with | some v => acc ++ [v] | none => acc) acc
        = acc ++ gs.filterMap (fun g => g.find? f) := by
  induction gs with
  | nil => intro acc; simp
  | cons g rest ih =>
    intro acc
    simp only [List.foldl_cons, List.filterMap_cons]
    cases hf : g.find? f with
    | none => rw [ih acc]
    | some v => rw [ih (acc ++ [v])]; simp

/-- Claim C6: `fuzzy_match` records at most one variant per group — the first
variant in group order whose normalised form is a substring of the normalised
text (that is, the hit list is exactly the `filterMap` of `find?` over the
groups) — and reports an overall match exactly when at least two groups
produced a hit; consequently, with no regex evidence, a single matched fuzzy
group never flags the `system_override` category. -/
theorem claim_C6_fuzzy_cooccurrence :
    (∀ (text : List Char) (patterns : List (List (List Char))),
      (fuzzy_match text patterns).2 =
        patterns.filterMap
          (fun g => g.find? (fun v => substrOf (normalize_text v) (normalize_text text))) ∧
      ((fuzzy_match text patterns).1 = true ↔ 2 ≤ (fuzzy_match text patterns).2.length)) ∧
    (∀ prompt : List Char,
      (fuzzy_match prompt fuzzy_system_override).2.length ≤ 1 →
      detect_system_override [] prompt = (false, [])) := by
  have hsnd : ∀ (text : List Char) (patterns : List (List (List Char))),
      (fuzzy_match text patterns).2 =
        patterns.filterMap
          (fun g => g.find? (fun v => substrOf (normalize_text v) (normalize_text text))) := by
    intro text patterns
    unfold fuzzy_match
    exact foldl_firstMatch_eq_filterMap _ patterns []
  have hfst : ∀ (text : List Char) (patterns : List (List (List Char))),
      (fuzzy_match text patterns).1 = true ↔ 2 ≤ (fuzzy_match text patterns).2.length := by
    intro text patterns
    unfold fuzzy_match
    exact decide_eq_true_iff
  refine ⟨fun text patterns => ⟨hsnd text patterns, hfst text patterns⟩, ?_⟩
  intro prompt hlen
  have hfalse : (fuzzy_match prompt fuzzy_system_override).1 = false := by
    cases hb : (fuzzy_match prompt fuzzy_system_override).1 with
    | false => rfl
    | true => exact absurd ((hfst prompt fuzzy_system_override).mp hb) (by omega)
  simp [detect_system_override, hfalse]

/-- Claim C6 witness: the prompt "ignore this text please" matches only the
first fuzzy group of `fuzzy_system_override` ("ignore"), so the fuzzy
mechanism alone does not flag the category. -/
theorem claim_C6_witness :
    (fuzzy_match "ignore this text please".data fuzzy_system_override).2.length ≤ 1 ∧
    detect_system_override [] "ignore this text please".data = (false, []) :=
  ⟨by decide, claim_C6_fuzzy_cooccurrence.2 "ignore this text please".data (by decide)⟩

end SentinelGuard

namespace SentinelGuard

theorem dequeAppend_eq_drop (n : ℕ) (h : List PromptRecord) (r : PromptRecord)
    (hle : h.length ≤ n) (hn : 1 ≤ n) :
    dequeAppend n h r = (h ++ [r]).drop (h.length + 1 - n) := by
  unfold dequeAppend
  split_ifs with hlt
  · have h0 : h.length + 1 - n = 0 := by omega
    rw [h0, List.drop_zero]
  · have hk : h.length + 1 - n ≤ h.length := by omega
    rw [List.drop_append_of_le_length hk]

theorem dequeAppend_length (n : ℕ) (h : List PromptRecord) (r : PromptRecord)
    (hle : h.length ≤ n) (hn : 1 ≤ n) :
    (dequeAppend n h r).length = h.length + 1 - (h.length + 1 - n) := by
  rw [dequeAppend_eq_drop n h r hle hn, List.length_drop, List.length_append]
  simp

theorem foldl_dequeAppend_eq_drop (n : ℕ) (hn : 1 ≤ n) (recs : List PromptRecord) :
    ∀ h : List PromptRecord, h.length ≤ n →
      recs.foldl (dequeAppend n) h = (h ++ recs).drop (h.length + recs.length - n) := by
  induction recs with
  | nil =>
    intro h hle
    have h0 : h.length + ([] : List PromptRecord).length - n = 0 := by
      simp only [List.length_nil]
      omega
    rw [h0]
    simp
  | cons r rs ih =>
    intro h hle
    have hlen := dequeAppend_length n h r hle hn
    have hle2 : (dequeAppend n h r).length ≤ n := by omega
    rw [List.foldl_cons, ih _ hle2, dequeAppend_eq_drop n h r hle hn]
    have hk : h.length + 1 - n ≤ (h ++ [r]).length := by
      rw [List.length_append]
      simp only [List.length_cons, List.length_nil]
      omega
    rw [← List.drop_append_of_le_length hk, List.drop_drop]
    have hassoc : (h ++ [r]) ++ rs = h ++ r :: rs := by simp
    rw [hassoc]
    have hidx : h.length + 1 - n + ((h ++ [r]).drop (h.length + 1 - n)).length + rs.length - n
        = h.length + (r :: rs).length - n := by
      rw [List.length_drop, List.length_append]
      simp only [List.length_cons, List.length_nil]
      omega
    rw [← hidx]
    have hcomm : h.length + 1 - n + (((h ++ [r]).drop (h.length + 1 - n)).length + rs.length - n)
        = h.length + 1 - n + ((h ++ [r]).drop (h.length + 1 - n)).length + rs.length - n := by
      rw [List.length_drop, List.length_append]
      simp only [List.length_cons, List.length_nil]
      omega
    rw [hcomm]

theorem add_prompt_at_user (s : Conversations) (u : List Char) (r : PromptRecord) :
    (add_prompt s u r) u = dequeAppend MAX_CONVERSATION_HISTORY (s u) r := by
  unfold add_prompt
  simp

theorem add_prompt_length_le (s : Conversations) (u : List Char) (r : PromptRecord)
    (hs : ∀ v, (s v).length ≤ MAX_CONVERSATION_HISTORY) :
    ∀ v, ((add_prompt s u r) v).length ≤ MAX_CONVERSATION_HISTORY := by
  intro v
  unfold add_prompt
  by_cases hv : v = u
  · rw [if_pos hv]
    have := dequeAppend_length MAX_CONVERSATION_HISTORY (s u) r (hs u) (by decide)
    omega
  · rw [if_neg hv]
    exact hs v

theorem apply_ops_length_le (ops : List (List Char × PromptRecord)) :
    ∀ s : Conversations, (∀ v, (s v).length ≤ MAX_CONVERSATION_HISTORY) →
      ∀ v, ((apply_ops s ops) v).length ≤ MAX_CONVERSATION_HISTORY := by
  induction ops with
  | nil => intro s hs v; exact hs v
  | cons op rest ih =>
    intro s hs v
    exact ih (add_prompt s op.1 op.2) (add_prompt_length_le s op.1 op.2 hs) v

theorem fold_add_prompt_at_user (u : List Char) (recs : List PromptRecord) :
    ∀ s : Conversations,
      (recs.foldl (fun st r => add_prompt st u r) s) u
        = recs.foldl (dequeAppend MAX_CONVERSATION_HISTORY) (s u) := by
  induction recs with
  | nil => intro s; rfl
  | cons r rs ih =>
    intro s
    rw [List.foldl_cons, List.foldl_cons, ih (add_prompt s u r), add_prompt_at_user]

/-- Claim C5: starting from the empty store, a user's history never holds
more than `MAX_CONVERSATION_HISTORY` (= 10) records under any sequence of
appends; and after appending at least `N` records for one user (starting from
any store satisfying the size bound), retrieving that user's history returns
exactly the last `N` appended records, in append (chronological) order —
so appending when full evicts the oldest record. -/
theorem claim_C5_bounded_history :
    (∀ (ops : List (List Char × PromptRecord)) (u : List Char),
      ((apply_ops empty_conversations ops) u).length ≤ MAX_CONVERSATION_HISTORY) ∧
    (∀ (s : Conversations) (u : List Char) (recs : List PromptRecord),
      (∀ v, (s v).length ≤ MAX_CONVERSATION_HISTORY) →
      MAX_CONVERSATION_HISTORY ≤ recs.length →
      get_history (recs.foldl (fun st r => add_prompt st u r) s) u none
        = recs.drop (recs.length - MAX_CONVERSATION_HISTORY)) := by
  constructor
  · intro ops u
    exact apply_ops_length_le ops empty_conversations
      (fun v => by simp [empty_conversations]) u
  · intro s u recs hs hrecs
    show (recs.foldl (fun st r => add_prompt st u r) s) u
      = recs.drop (recs.length - MAX_CONVERSATION_HISTORY)
    rw [fold_add_prompt_at_user u recs s,
      foldl_dequeAppend_eq_drop MAX_CONVERSATION_HISTORY (by decide) recs (s u) (hs u)]
    have hidx : (s u).length + recs.length - MAX_CONVERSATION_HISTORY
        = (s u).length + (recs.length - MAX_CONVERSATION_HISTORY) := by omega
    rw [hidx, ← List.drop_drop, List.drop_left]

/-- Claim C5 witness: twelve appends for one user leave exactly the last ten
records, in order. -/
theorem claim_C5_witness :
    (∀ v, (empty_conversations v).length ≤ MAX_CONVERSATION_HISTORY) ∧
    MAX_CONVERSATION_HISTORY ≤ recsC5.length ∧
    get_history (recsC5.foldl (fun st r => add_prompt st "u".data r) empty_conversations)
        "u".data none
      = recsC5.drop (recsC5.length - MAX_CONVERSATION_HISTORY) :=
  ⟨fun v => by simp [empty_conversations], by decide,
   claim_C5_bounded_history.2 empty_conversations "u".data recsC5
     (fun v => by simp [empty_conversations]) (by decide)⟩

end SentinelGuard

namespace SentinelGuard

theorem make_decision_outcome (prompt : List Char) (det : DetectionResult)
    (meta : Option LlmMeta) (ta : TemporalAnalysis) (c : ℚ) :
    (make_decision prompt det meta ta c).outcome =
      if CONFIDENCE_THRESHOLD_BLOCK ≤ c then Outcome.BLOCK
      else if CONFIDENCE_THRESHOLD_SANITIZE ≤ c then Outcome.SANITIZE
      else Outcome.ALLOW := by
  unfold make_decision
  split_ifs <;> rfl

/-- Claim C1: for every confidence `c` in `[0, 1]`, the decision engine
produces exactly one outcome, determined solely by `c` against the fixed
thresholds: `c ≥ 0.8` yields BLOCK, `0.5 ≤ c < 0.8` yields SANITIZE, and
`c < 0.5` yields ALLOW; the outcome does not depend on any other input. -/
theorem claim_C1_threshold_policy (c : ℚ) (hc0 : 0 ≤ c) (hc1 : c ≤ 1)
    (prompt : List Char) (det : DetectionResult) (meta : Option LlmMeta)
    (ta : TemporalAnalysis) :
    ((0.8 : ℚ) ≤ c → (make_decision prompt det meta ta c).outcome = Outcome.BLOCK) ∧
    ((0.5 : ℚ) ≤ c → c < (0.8 : ℚ) →
      (make_decision prompt det meta ta c).outcome = Outcome.SANITIZE) ∧
    (c < (0.5 : ℚ) → (make_decision prompt det meta ta c).outcome = Outcome.ALLOW) ∧
    (∀ (prompt2 : List Char) (det2 : DetectionResult) (meta2 : Option LlmMeta)
        (ta2 : TemporalAnalysis),
      (make_decision prompt det meta ta c).outcome
        = (make_decision prompt2 det2 meta2 ta2 c).outcome) := by
  refine ⟨?_, ?_, ?_, ?_⟩
  · intro h
    rw [make_decision_outcome, if_pos (show CONFIDENCE_THRESHOLD_BLOCK ≤ c from h)]
  · intro h1 h2
    rw [make_decision_outcome,
      if_neg (show ¬ CONFIDENCE_THRESHOLD_BLOCK ≤ c from not_le.mpr h2),
      if_pos (show CONFIDENCE_THRESHOLD_SANITIZE ≤ c from h1)]
  · intro h
    have hb : ¬ CONFIDENCE_THRESHOLD_BLOCK ≤ c := by
      rw [show CONFIDENCE_THRESHOLD_BLOCK = (0.8 : ℚ) from rfl]
      intro hle
      have : (0.5 : ℚ) ≤ c := le_trans (by norm_num) hle
      exact absurd h (not_lt.mpr this)
    have hs : ¬ CONFIDENCE_THRESHOLD_SANITIZE ≤ c := not_le.mpr h
    rw [make_decision_outcome, if_neg hb, if_neg hs]
  · intro prompt2 det2 meta2 ta2
    rw [make_decision_outcome, make_decision_outcome]

/-- Claim C1 witness: at confidence 0.9 the outcome is BLOCK. -/
theorem claim_C1_witness :
    0 ≤ (9 / 10 : ℚ) ∧ (9 / 10 : ℚ) ≤ 1 ∧
    (make_decision [] detNoThreat none taEmpty (9 / 10)).outcome = Outcome.BLOCK :=
  ⟨by norm_num, by norm_num,
   (claim_C1_threshold_policy (9 / 10) (by norm_num) (by norm_num) [] detNoThreat none
     taEmpty).1 (by norm_num)⟩

/-- Claim C4: if the oracle fails, times out, or is unavailable (its call
returns no verdict), the returned confidence is the rounded pre-escalation
`initial_confidence` (0 on the no-threat fast path), the recorded
meta-analysis stays empty, and the resulting Decision is identical — for
every prompt, detection result and temporal analysis — to the Decision
computed with oracle escalation disabled entirely (no analyzer configured),
whatever that disabled path would have been handed as a response. -/
theorem claim_C4_fail_open (prompt : List Char) (det : DetectionResult)
    (ta : TemporalAnalysis) (resp : Option OracleVerdict) :
    ((calculate_confidence det (some ta) true none).confidence =
      if det.overall_threat = true then round2 (initial_confidence det (some ta)) else 0) ∧
    (calculate_confidence det (some ta) true none).llm_meta = none ∧
    (calculate_confidence det (some ta) true none).confidence
      = (calculate_confidence det (some ta) false resp).confidence ∧
    decide_with prompt det ta true none = decide_with prompt det ta false resp := by
  have hconf : (calculate_confidence det (some ta) true none).confidence
      = if det.overall_threat = true then round2 (initial_confidence det (some ta)) else 0 := by
    cases hb : det.overall_threat with
    | false => simp [calculate_confidence, hb]
    | true =>
      simp only [calculate_confidence, hb, if_pos, if_neg, Bool.true_eq_false,
        if_false, ite_false, ite_true]
      split_ifs <;> rfl
  have hmeta : (calculate_confidence det (some ta) true none).llm_meta = none := by
    cases hb : det.overall_threat with
    | false => simp [calculate_confidence, hb]
    | true =>
      simp only [calculate_confidence, hb, Bool.true_eq_false, if_false, ite_false, ite_true]
      split_ifs <;> rfl
  have hconf2 : (calculate_confidence det (some ta) false resp).confidence
      = if det.overall_threat = true then round2 (initial_confidence det (some ta)) else 0 := by
    cases hb : det.overall_threat with
    | false => simp [calculate_confidence, hb]
    | true =>
      simp only [calculate_confidence, hb, Bool.true_eq_false, if_false, ite_false, ite_true]
      cases resp with
      | none => split_ifs <;> rfl
      | some v => split_ifs <;> first | rfl | (exfalso; assumption)
  have hmeta2 : (calculate_confidence det (some ta) false resp).llm_meta = none := by
    cases hb : det.overall_threat with
    | false => simp [calculate_confidence, hb]
    | true =>
      simp only [calculate_confidence, hb, Bool.true_eq_false, if_false, ite_false, ite_true]
      cases resp with
      | none => split_ifs <;> rfl
      | some v => split_ifs <;> first | rfl | (exfalso; assumption)
  refine ⟨hconf, hmeta, by rw [hconf, hconf2], ?_⟩
  simp only [decide_with]
  rw [hconf, hconf2, hmeta, hmeta2]

end SentinelGuard

namespace SentinelGuard

theorem foldl_max_nonneg (ws : List ℚ) : ∀ a : ℚ, 0 ≤ a → 0 ≤ ws.foldl max a := by
  induction ws with
  | nil => intro a ha; simpa using ha
  | cons w rest ih =>
    intro a ha
    exact ih (max a w) (le_trans ha (le_max_left a w))

theorem foldl_max_le_one (ws : List ℚ) (hws : ∀ w ∈ ws, w ≤ 1) :
    ∀ a : ℚ, a ≤ 1 → ws.foldl max a ≤ 1 := by
  induction ws with
  | nil => intro a ha; simpa using ha
  | cons w rest ih =>
    intro a ha
    exact ih (fun x hx => hws x (List.mem_cons_of_mem _ hx)) (max a w)
      (max_le ha (hws w (List.mem_cons_self w rest)))

theorem foldl_add_nonneg (ws : List ℚ) (hws : ∀ w ∈ ws, 0 ≤ w) :
    ∀ a : ℚ, 0 ≤ a → 0 ≤ ws.foldl (· + ·) a := by
  induction ws with
  | nil => intro a ha; simpa using ha
  | cons w rest ih =>
    intro a ha
    exact ih (fun x hx => hws x (List.mem_cons_of_mem _ hx)) (a + w)
      (add_nonneg ha (hws w (List.mem_cons_self w rest)))

theorem foldl_add_le_add_length (ws : List ℚ) (hws : ∀ w ∈ ws, w ≤ 1) :
    ∀ a : ℚ, ws.foldl (· + ·) a ≤ a + (ws.length : ℚ) := by
  induction ws with
  | nil => intro a; simp
  | cons w rest ih =>
    intro a
    have h1 : rest.foldl (· + ·) (a + w) ≤ (a + w) + (rest.length : ℚ) :=
      ih (fun x hx => hws x (List.mem_cons_of_mem _ hx)) (a + w)
    have h2 : w ≤ 1 := hws w (List.mem_cons_self w rest)
    have h3 : ((w :: rest).length : ℚ) = (rest.length : ℚ) + 1 := by
      simp only [List.length_cons]
      push_cast
      ring
    rw [List.foldl_cons, h3]
    linarith

theorem initial_confidence_bounds (det : DetectionResult) (ta : Option TemporalAnalysis)
    (hw : ∀ hit ∈ det.attacks_detected, 0 ≤ hit.weight ∧ hit.weight ≤ 1) :
    0 ≤ initial_confidence det ta ∧ initial_confidence det ta ≤ 1 := by
  have hws0 : ∀ w ∈ det.attacks_detected.map (fun hit => hit.weight), 0 ≤ w := by
    intro w hw2
    rcases List.mem_map.mp hw2 with ⟨hit, hmem, rfl⟩
    exact (hw hit hmem).1
  have hws1 : ∀ w ∈ det.attacks_detected.map (fun hit => hit.weight), w ≤ 1 := by
    intro w hw2
    rcases List.mem_map.mp hw2 with ⟨hit, hmem, rfl⟩
    exact (hw hit hmem).2
  simp only [initial_confidence]
  set ws := det.attacks_detected.map (fun hit => hit.weight) with hws
  have hbase : 0 ≤ (if 0 < ws.length then
        (ws.foldl max 0 + ws.foldl (· + ·) 0 / (ws.length : ℚ)) / 2 else 0) ∧
      (if 0 < ws.length then
        (ws.foldl max 0 + ws.foldl (· + ·) 0 / (ws.length : ℚ)) / 2 else 0) ≤ 1 := by
    split_ifs with hc
    · have hcast : (0 : ℚ) < (ws.length : ℚ) := by exact_mod_cast hc
      have hmax0 : 0 ≤ ws.foldl max 0 := foldl_max_nonneg ws 0 le_rfl
      have hmax1 : ws.foldl max 0 ≤ 1 := foldl_max_le_one ws hws1 0 (by norm_num)
      have htot0 : 0 ≤ ws.foldl (· + ·) 0 := foldl_add_nonneg ws hws0 0 le_rfl
      have htot1 : ws.foldl (· + ·) 0 ≤ (ws.length : ℚ) := by
        have := foldl_add_le_add_length ws hws1 0
        linarith
      have hd0 : 0 ≤ ws.foldl (· + ·) 0 / (ws.length : ℚ) := div_nonneg htot0 (le_of_lt hcast)
      have hd1 : ws.foldl (· + ·) 0 / (ws.length : ℚ) ≤ 1 := by
        rw [div_le_one hcast]
        exact htot1
      constructor
      · linarith
      · linarith
    · norm_num
  have hboost : 0 ≤ (match ta with
      | some t => if t.has_temporal_attack then (0.15 : ℚ) * (t.temporal_flags.length : ℚ)
          else 0
      | none => (0 : ℚ)) := by
    cases ta with
    | none => exact le_rfl
    | some t =>
      show 0 ≤ if t.has_temporal_attack = true
        then (0.15 : ℚ) * (t.temporal_flags.length : ℚ) else 0
      split_ifs
      · positivity
      · exact le_rfl
  constructor
  · exact le_min (add_nonneg hbase.1 hboost) (by norm_num)
  · exact min_le_right _ 1

theorem round2_bounds_01 (q : ℚ) (h0 : 0 ≤ q) (h1 : q ≤ 1) :
    0 ≤ round2 q ∧ round2 q ≤ 1 := by
  unfold round2
  constructor
  · apply div_nonneg _ (by norm_num)
    have hr : (0 : ℤ) ≤ round (q * 100) := by
      rw [round_eq]
      exact Int.le_floor.mpr (by push_cast; linarith)
    exact_mod_cast hr
  · rw [div_le_one (by norm_num)]
    have hr : round (q * 100) ≤ 100 := by
      rw [round_eq]
      have hlt : ⌊q * 100 + 1 / 2⌋ < 101 := Int.floor_lt.mpr (by push_cast; linarith)
      omega
    exact_mod_cast hr

theorem analyze_temporal_patterns_flag_invariant (h : List PromptRecord) :
    (analyze_temporal_patterns h).has_temporal_attack
      = !(analyze_temporal_patterns h).temporal_flags.isEmpty := by
  unfold analyze_temporal_patterns
  split_ifs <;> rfl

theorem temporal_boost_eq (t : TemporalAnalysis)
    (hinv : t.has_temporal_attack = !t.temporal_flags.isEmpty) :
    (if t.has_temporal_attack then (0.15 : ℚ) * (t.temporal_flags.length : ℚ) else 0)
      = (0.15 : ℚ) * (t.temporal_flags.length : ℚ) := by
  rw [hinv]
  cases hf : t.temporal_flags with
  | nil => simp [hf]
  | cons a l => simp [hf]

theorem calculate_confidence_none_eq (det : DetectionResult) (ta : Option TemporalAnalysis)
    (avail : Bool) (ht : det.overall_threat = true) :
    (calculate_confidence det ta avail none).confidence
      = round2 (initial_confidence det ta) := by
  simp only [calculate_confidence, ht, Bool.true_eq_false, if_false, ite_false, ite_true]
  split_ifs <;> rfl

theorem initial_confidence_eq_formula (det : DetectionResult) (t : TemporalAnalysis)
    (hinv : t.has_temporal_attack = !t.temporal_flags.isEmpty)
    (hne : det.attacks_detected ≠ []) :
    initial_confidence det (some t)
      = min ((((det.attacks_detected.map (fun hit => hit.weight)).foldl max 0
            + (det.attacks_detected.map (fun hit => hit.weight)).foldl (· + ·) 0
              / ((det.attacks_detected.length : ℕ) : ℚ)) / 2)
          + (0.15 : ℚ) * ((t.temporal_flags.length : ℕ) : ℚ)) 1 := by
  simp only [initial_confidence, List.length_map]
  rw [if_pos (List.length_pos.mpr hne), temporal_boost_eq t hinv]

/-- Claim C2: with no matched category, `calculate_confidence` returns
exactly 0.0 and never consults the oracle; with at least one matched category
and the temporal analysis produced by `analyze_temporal_patterns`, the
pre-escalation score returned (oracle failing or absent) equals
`min((max weight + mean weight)/2 + 0.15·|temporal flags|, 1.0)` rounded to
two decimals; and for weights and oracle confidences within `[0, 1]` the
returned score always lies in `[0, 1]`. -/
theorem claim_C2_confidence_formula :
    (∀ (det : DetectionResult) (ta : Option TemporalAnalysis) (avail : Bool)
        (resp : Option OracleVerdict),
      (det.overall_threat = true ↔ det.attacks_detected ≠ []) →
      det.attacks_detected = [] →
        calculate_confidence det ta avail resp =
          { confidence := 0, consulted := false, llm_meta := none }) ∧
    (∀ (det : DetectionResult) (history : List PromptRecord) (avail : Bool),
      det.overall_threat = true →
      det.attacks_detected ≠ [] →
        (calculate_confidence det (some (analyze_temporal_patterns history)) avail
            none).confidence
          = round2 (min ((((det.attacks_detected.map (fun hit => hit.weight)).foldl max 0
                + (det.attacks_detected.map (fun hit => hit.weight)).foldl (· + ·) 0
                  / ((det.attacks_detected.length : ℕ) : ℚ)) / 2)
              + (0.15 : ℚ) *
                  (((analyze_temporal_patterns history).temporal_flags.length : ℕ) : ℚ)) 1)) ∧
    (∀ (det : DetectionResult) (ta : Option TemporalAnalysis) (avail : Bool)
        (resp : Option OracleVerdict),
      (∀ hit ∈ det.attacks_detected, 0 ≤ hit.weight ∧ hit.weight ≤ 1) →
      (∀ v, resp = some v → 0 ≤ v.confidence ∧ v.confidence ≤ 1) →
        0 ≤ (calculate_confidence det ta avail resp).confidence ∧
        (calculate_confidence det ta avail resp).confidence ≤ 1) := by
  refine ⟨?_, ?_, ?_⟩
  · intro det ta avail resp hinv hempty
    have ht : det.overall_threat = false := by
      cases hb : det.overall_threat with
      | false => rfl
      | true => exact absurd (hinv.mp hb) (by simp [hempty])
    simp [calculate_confidence, ht]
  · intro det history avail ht hne
    rw [calculate_confidence_none_eq det _ avail ht,
      initial_confidence_eq_formula det _ (analyze_temporal_patterns_flag_invariant history) hne]
  · intro det ta avail resp hw hv
    cases hb : det.overall_threat with
    | false =>
      have hzero : (calculate_confidence det ta avail resp).confidence = 0 := by
        simp [calculate_confidence, hb]
      rw [hzero]
      norm_num
    | true =>
      have hic := initial_confidence_bounds det ta hw
      simp only [calculate_confidence, hb, Bool.true_eq_false, if_false, ite_false, ite_true]
      cases resp with
      | none =>
        split_ifs <;> exact round2_bounds_01 _ hic.1 hic.2
      | some v =>
        have hvc := hv v rfl
        split_ifs with h1 h2
        · cases hatt : v.is_attack with
          | false =>
            simp only [hatt, Bool.false_eq_true, if_false, ite_false]
            exact round2_bounds_01 _ (le_min hic.1 hvc.1) (le_trans (min_le_left _ _) hic.2)
          | true =>
            simp only [hatt, ite_true]
            exact round2_bounds_01 _ (le_trans hic.1 (le_max_left _ _))
              (max_le hic.2 hvc.2)
        · exact round2_bounds_01 _ hic.1 hic.2
        · exact round2_bounds_01 _ hic.1 hic.2

/-- Claim C2 witness: a no-threat detection result yields score 0 with no
escalation; the synthetic single-category result `detC3` (weight 0.62) with
an empty history yields the rounded formula value; and its score lies in
`[0, 1]`. -/
theorem claim_C2_witness :
    calculate_confidence detNoThreat none true none
        = { confidence := 0, consulted := false, llm_meta := none } ∧
    (calculate_confidence detC3 (some (analyze_temporal_patterns [])) true none).confidence
      = round2 (min ((((detC3.attacks_detected.map (fun hit => hit.weight)).foldl max 0
            + (detC3.attacks_detected.map (fun hit => hit.weight)).foldl (· + ·) 0
              / ((detC3.attacks_detected.length : ℕ) : ℚ)) / 2)
          + (0.15 : ℚ) *
              (((analyze_temporal_patterns []).temporal_flags.length : ℕ) : ℚ)) 1) ∧
    (0 ≤ (calculate_confidence detC3 none true none).confidence ∧
      (calculate_confidence detC3 none true none).confidence ≤ 1) :=
  ⟨claim_C2_confidence_formula.1 detNoThreat none true none (by simp [detNoThreat]) rfl,
   claim_C2_confidence_formula.2.1 detC3 [] true rfl (by simp [detC3]),
   claim_C2_confidence_formula.2.2 detC3 none true none
     (by intro hit hmem
         simp only [detC3, List.mem_singleton] at hmem
         subst hmem
         norm_num)
     (by intro v hv; exact absurd hv (by simp))⟩

end SentinelGuard

namespace SentinelGuard

theorem make_decision_confidence (prompt : List Char) (det : DetectionResult)
    (meta : Option LlmMeta) (ta : TemporalAnalysis) (c : ℚ) :
    (make_decision prompt det meta ta c).confidence = c := by
  unfold make_decision
  split_ifs <;> rfl

theorem calculate_confidence_consulted (det : DetectionResult) (ta : Option TemporalAnalysis)
    (resp : Option OracleVerdict) (ht : det.overall_threat = true) :
    (calculate_confidence det ta true resp).consulted = true ↔
      ((0.5 : ℚ) ≤ initial_confidence det ta ∧ initial_confidence det ta < (0.8 : ℚ)) := by
  simp only [calculate_confidence, ht, Bool.true_eq_false, if_false, ite_false, ite_true]
  split_ifs with hwin
  · cases resp <;> simp [hwin]
  · simp [hwin]

theorem calculate_confidence_verdict (det : DetectionResult) (ta : Option TemporalAnalysis)
    (v : OracleVerdict) (ht : det.overall_threat = true)
    (hwin : (0.5 : ℚ) ≤ initial_confidence det ta ∧ initial_confidence det ta < (0.8 : ℚ)) :
    (calculate_confidence det ta true (some v)).confidence =
      round2 (if v.is_attack then max (initial_confidence det ta) v.confidence
        else min (initial_confidence det ta) v.confidence) := by
  simp only [calculate_confidence, ht, Bool.true_eq_false, if_false, ite_false, ite_true]
  rw [if_pos hwin]

theorem initial_confidence_detC3_none : initial_confidence detC3 none = 62 / 100 := by
  simp only [initial_confidence, detC3, List.map_cons, List.map_nil, List.foldl_cons,
    List.foldl_nil, List.length_cons, List.length_nil]
  norm_num [max_def, min_def]

theorem initial_confidence_detC3_taEmpty :
    initial_confidence detC3 (some taEmpty) = 62 / 100 := by
  simp only [initial_confidence, detC3, taEmpty, List.map_cons, List.map_nil, List.foldl_cons,
    List.foldl_nil, List.length_cons, List.length_nil]
  norm_num [max_def, min_def]

/-- Claim C3: with the analyzer configured and a threat present, the oracle is
consulted exactly when the initial confidence lies in `[0.5, 0.8)`; when it
returns a verdict, the final confidence is (the 2-decimal rounding of)
`max(initial, oracle)` if the oracle says attack and `min(initial, oracle)` if
it says safe; in particular, for an initial confidence of exactly `0.62` and
the verdict `{isAttack: false, confidence: 0.3}`, the final confidence is
`0.3` and the decision is ALLOW. -/
theorem claim_C3_oracle_escalation :
    (∀ (det : DetectionResult) (ta : Option TemporalAnalysis) (resp : Option OracleVerdict),
      det.overall_threat = true →
        ((calculate_confidence det ta true resp).consulted = true ↔
          ((0.5 : ℚ) ≤ initial_confidence det ta ∧ initial_confidence det ta < (0.8 : ℚ)))) ∧
    (∀ (det : DetectionResult) (ta : Option TemporalAnalysis) (v : OracleVerdict),
      det.overall_threat = true →
      (0.5 : ℚ) ≤ initial_confidence det ta →
      initial_confidence det ta < (0.8 : ℚ) →
        (calculate_confidence det ta true (some v)).confidence =
          round2 (if v.is_attack then max (initial_confidence det ta) v.confidence
            else min (initial_confidence det ta) v.confidence)) ∧
    (initial_confidence detC3 none = 62 / 100 ∧
      (calculate_confidence detC3 none true (some verdictC3)).confidence = 3 / 10 ∧
      (decide_with detC3.prompt detC3 taEmpty true (some verdictC3)).confidence = 3 / 10 ∧
      (decide_with detC3.prompt detC3 taEmpty true (some verdictC3)).outcome = Outcome.ALLOW) := by
  have hconf1 : (calculate_confidence detC3 none true (some verdictC3)).confidence = 3 / 10 := by
    rw [calculate_confidence_verdict detC3 none verdictC3 rfl
      (by rw [initial_confidence_detC3_none]; constructor <;> norm_num)]
    rw [initial_confidence_detC3_none]
    norm_num [verdictC3, round2, min_def, round_eq]
  have hconf2 :
      (calculate_confidence detC3 (some taEmpty) true (some verdictC3)).confidence = 3 / 10 := by
    rw [calculate_confidence_verdict detC3 (some taEmpty) verdictC3 rfl
      (by rw [initial_confidence_detC3_taEmpty]; constructor <;> norm_num)]
    rw [initial_confidence_detC3_taEmpty]
    norm_num [verdictC3, round2, min_def, round_eq]
  refine ⟨fun det ta resp ht => calculate_confidence_consulted det ta resp ht,
    fun det ta v ht h1 h2 => calculate_confidence_verdict det ta v ht ⟨h1, h2⟩,
    initial_confidence_detC3_none, hconf1, ?_, ?_⟩
  · simp only [decide_with]
    rw [make_decision_confidence]
    exact hconf2
  · simp only [decide_with]
    rw [make_decision_outcome, hconf2]
    norm_num [CONFIDENCE_THRESHOLD_BLOCK, CONFIDENCE_THRESHOLD_SANITIZE]

/-- Claim C3 witness: the escalation-window test and the verdict-merge formula
instantiated at the concrete fixture (initial confidence 0.62, oracle safe
verdict 0.3). -/
theorem claim_C3_witness :
    detC3.overall_threat = true ∧
    ((calculate_confidence detC3 none true (some verdictC3)).consulted = true ↔
      ((0.5 : ℚ) ≤ initial_confidence detC3 none ∧
        initial_confidence detC3 none < (0.8 : ℚ))) ∧
    (calculate_confidence detC3 none true (some verdictC3)).confidence =
      round2 (if verdictC3.is_attack
        then max (initial_confidence detC3 none) verdictC3.confidence
        else min (initial_confidence detC3 none) verdictC3.confidence) :=
  ⟨rfl, claim_C3_oracle_escalation.1 detC3 none (some verdictC3) rfl,
   claim_C3_oracle_escalation.2.1 detC3 none verdictC3 rfl
     (by rw [initial_confidence_detC3_none]; norm_num)
     (by rw [initial_confidence_detC3_none]; norm_num)⟩

end SentinelGuard

namespace SentinelGuard

theorem flag_notMem_ite_role (c : Prop) [Decidable c] :
    TemporalFlag.privilege_escalation_over_time
      ∉ (if c then [TemporalFlag.repeated_role_manipulation] else []) := by
  split_ifs <;> simp

theorem flag_notMem_ite_sys (c : Prop) [Decidable c] :
    TemporalFlag.privilege_escalation_over_time
      ∉ (if c then [TemporalFlag.system_override_attempt] else []) := by
  split_ifs <;> simp

theorem analyze_escalation_mem (history : List PromptRecord) (hlen : 3 ≤ history.length) :
    (TemporalFlag.privilege_escalation_over_time
        ∈ (analyze_temporal_patterns history).temporal_flags) ↔
      TEMPORAL_ESCALATION_RATE ≤
        (((history.map (fun r => count_privilege_keywords r.prompt)).drop
            (history.length - 3)).sum : ℚ) / 3 -
        (((history.map (fun r => count_privilege_keywords r.prompt)).take
            (history.length - 3)).sum : ℚ) /
          ((max (history.length - 3) 1 : ℕ) : ℚ) := by
  have hne : ¬ history.isEmpty = true := by
    cases history with
    | nil => simp at hlen
    | cons a l => simp
  simp only [analyze_temporal_patterns, List.length_map]
  rw [if_neg hne]
  simp only [List.mem_append, List.length_map]
  rw [if_pos hlen]
  have hrole := flag_notMem_ite_role
    (TEMPORAL_ROLE_SHIFT_COUNT ≤
      (history.filter (fun r => r.flags.contains Category.role_manipulation)).length)
  have hsys := flag_notMem_ite_sys
    (TEMPORAL_INSTRUCTION_OVERRIDE_COUNT ≤
      (history.filter (fun r => r.flags.contains Category.system_override)).length)
  simp only [hrole, hsys, or_false]
  split_ifs with hdec
  · exact iff_of_true (List.mem_singleton_self _) (of_decide_eq_true hdec)
  · exact iff_of_false (by simp) (fun hp => hdec (decide_eq_true hp))

/-- Claim C7: for histories of at least 3 prompts, the
`privilege_escalation_over_time` flag is raised exactly when the mean
privilege-keyword count of the last 3 prompts minus the mean count of all
earlier prompts (denominator floored at 1) is at least the escalation-rate
threshold (3), each prompt counted against the configured privilege keyword
list; per-turn counts [0,0,1,2,5] do not raise the flag and [0,0,0,4,5] do. -/
theorem claim_C7_escalation_over_time :
    (∀ history : List PromptRecord, 3 ≤ history.length →
      ((TemporalFlag.privilege_escalation_over_time
          ∈ (analyze_temporal_patterns history).temporal_flags) ↔
        TEMPORAL_ESCALATION_RATE ≤
          (((history.map (fun r => count_privilege_keywords r.prompt)).drop
              (history.length - 3)).sum : ℚ) / 3 -
          (((history.map (fun r => count_privilege_keywords r.prompt)).take
              (history.length - 3)).sum : ℚ) /
            ((max (history.length - 3) 1 : ℕ) : ℚ))) ∧
    (TemporalFlag.privilege_escalation_over_time
      ∉ (analyze_temporal_patterns histC7a).temporal_flags) ∧
    (TemporalFlag.privilege_escalation_over_time
      ∈ (analyze_temporal_patterns histC7b).temporal_flags) := by
  have hca : histC7a.map (fun r => count_privilege_keywords r.prompt) = [0, 0, 1, 2, 5] := by
    decide
  have hcb : histC7b.map (fun r => count_privilege_keywords r.prompt) = [0, 0, 0, 4, 5] := by
    decide
  have hla : histC7a.length = 5 := rfl
  have hlb : histC7b.length = 5 := rfl
  refine ⟨analyze_escalation_mem, ?_, ?_⟩
  · intro hmem
    have h := (analyze_escalation_mem histC7a (by rw [hla]; norm_num)).mp hmem
    rw [hca, hla] at h
    norm_num [TEMPORAL_ESCALATION_RATE] at h
  · refine (analyze_escalation_mem histC7b (by rw [hlb]; norm_num)).mpr ?_
    rw [hcb, hlb]
    norm_num [TEMPORAL_ESCALATION_RATE]

/-- Claim C7 witness: the flag criterion instantiated at the five-turn history
with counts [0,0,0,4,5]. -/
theorem claim_C7_witness :
    3 ≤ histC7b.length ∧
    ((TemporalFlag.privilege_escalation_over_time
        ∈ (analyze_temporal_patterns histC7b).temporal_flags) ↔
      TEMPORAL_ESCALATION_RATE ≤
        (((histC7b.map (fun r => count_privilege_keywords r.prompt)).drop
            (histC7b.length - 3)).sum : ℚ) / 3 -
        (((histC7b.map (fun r => count_privilege_keywords r.prompt)).take
            (histC7b.length - 3)).sum : ℚ) /
          ((max (histC7b.length - 3) 1 : ℕ) : ℚ)) :=
  ⟨by decide, claim_C7_escalation_over_time.1 histC7b (by decide)⟩

end SentinelGuard

namespace SentinelGuard

theorem foldl_parseLine_verdict (lines : List (List Char)) :
    ∀ st : ParseState,
      (∀ l ∈ lines, ¬ "VERDICT:".data.isPrefixOf (pyStrip l)) →
      (lines.foldl parseLine st).verdict = st.verdict := by
  induction lines with
  | nil => intro st _; rfl
  | cons l ls ih =>
    intro st h
    rw [List.foldl_cons, ih _ (fun x hx => h x (List.mem_cons_of_mem _ hx))]
    show (parseLine st l).verdict = st.verdict
    simp only [parseLine]
    rw [if_neg (h l (List.mem_cons_self l ls))]
    split_ifs <;> rfl

theorem foldl_parseLine_confidence (lines : List (List Char)) :
    ∀ st : ParseState,
      (∀ l ∈ lines, ¬ "CONFIDENCE:".data.isPrefixOf (pyStrip l)) →
      (lines.foldl parseLine st).confidence = st.confidence := by
  induction lines with
  | nil => intro st _; rfl
  | cons l ls ih =>
    intro st h
    rw [List.foldl_cons, ih _ (fun x hx => h x (List.mem_cons_of_mem _ hx))]
    show (parseLine st l).confidence = st.confidence
    simp only [parseLine]
    split_ifs with h1 h2 h3
    · rfl
    · exact absurd h2 (h l (List.mem_cons_self l ls))
    · rfl
    · rfl

/-- Claim C9 (counterexample): the claim asserts that any response with an
unrecognised or malformed verdict line yields confidence 0.5 and a reasoning
string noting the parse failure.  But the source honours a parseable
`CONFIDENCE:` line even when the verdict line is missing (confidence 0.9, not
0.5), and a `VERDICT:` line that simply does not contain `ATTACK` yields the
safe verdict with an empty reasoning string, not a parse-failure note. -/
theorem claim_C9_counterexample :
    (parse_llm_response "CONFIDENCE: 0.9".data).is_attack = false ∧
    (parse_llm_response "CONFIDENCE: 0.9".data).reasoning = PARSE_FAILURE_NOTE ∧
    (parse_llm_response "CONFIDENCE: 0.9".data).confidence = 9 / 10 ∧
    ¬ (parse_llm_response "CONFIDENCE: 0.9".data).confidence = 1 / 2 ∧
    (parse_llm_response "VERDICT: UNCLEAR".data).is_attack = false ∧
    (parse_llm_response "VERDICT: UNCLEAR".data).reasoning = [] := by
  have hconf : (parse_llm_response "CONFIDENCE: 0.9".data).confidence
      = max 0 (min 1 (((0 : ℕ) : ℚ) + ((9 : ℕ) : ℚ) / ((10 : ℚ) ^ (1 : ℕ)))) := rfl
  have h910 : (parse_llm_response "CONFIDENCE: 0.9".data).confidence = 9 / 10 := by
    rw [hconf]
    norm_num [max_def, min_def]
  exact ⟨rfl, rfl, h910, by rw [h910]; norm_num, rfl, rfl⟩

/-- Claim C9 (amended): when no line of the (stripped) oracle response starts
with `VERDICT:`, the parser returns not-an-attack with a reasoning string
noting the parse failure, and its confidence is the default 0.5 unless a
`CONFIDENCE:` line overrode it; a `VERDICT:` line lacking `ATTACK` also maps
to not-an-attack but without the parse-failure note (see the counterexample).
The parser itself is a total function — it never raises. -/
theorem claim_C9_amended (response : List Char)
    (hv : ∀ l ∈ (pyStrip response).splitOn '\n', ¬ "VERDICT:".data.isPrefixOf (pyStrip l)) :
    (parse_llm_response response).is_attack = false ∧
    (parse_llm_response response).reasoning = PARSE_FAILURE_NOTE ∧
    ((∀ l ∈ (pyStrip response).splitOn '\n', ¬ "CONFIDENCE:".data.isPrefixOf (pyStrip l)) →
      (parse_llm_response response).confidence = 1 / 2) := by
  have hverd : (((pyStrip response).splitOn '\n').foldl parseLine
      { verdict := none, confidence := 0.5, reasoning := [] }).verdict = none :=
    foldl_parseLine_verdict _ _ hv
  refine ⟨?_, ?_, ?_⟩
  · simp only [parse_llm_response]
    rw [hverd]
  · simp only [parse_llm_response]
    rw [hverd]
  · intro hc
    simp only [parse_llm_response]
    rw [hverd]
    show (((pyStrip response).splitOn '\n').foldl parseLine
      { verdict := none, confidence := 0.5, reasoning := [] }).confidence = 1 / 2
    rw [foldl_parseLine_confidence _ _ hc]
    norm_num

/-- Claim C9 witness: the single-line response "hello" has no verdict line, so
the parser defaults to safe, confidence 0.5, with the parse-failure note. -/
theorem claim_C9_witness :
    (∀ l ∈ (pyStrip "hello".data).splitOn '\n', ¬ "VERDICT:".data.isPrefixOf (pyStrip l)) ∧
    (parse_llm_response "hello".data).is_attack = false ∧
    (parse_llm_response "hello".data).reasoning = PARSE_FAILURE_NOTE ∧
    (parse_llm_response "hello".data).confidence = 1 / 2 :=
  ⟨by decide, (claim_C9_amended "hello".data (by decide)).1,
   (claim_C9_amended "hello".data (by decide)).2.1,
   (claim_C9_amended "hello".data (by decide)).2.2 (by decide)⟩

end SentinelGuard
